import Mathlib

set_option autoImplicit false
set_option maxRecDepth 8000

namespace LanDrop

/-! Shallow embedding of the LanDrop chunked-transfer core (`src/p2p`).
Bytes are modelled as natural numbers below 256, byte sequences as `List Nat`.
Go integer values that the code truncates to 32 bits are modelled with an
explicit `% 2^32`. -/

/-- Truncation to 32 bits, as Go's `uint32(x)` conversion. -/
def w32 (x : Nat) : Nat := x % 4294967296

/-- Big-endian serialization of `n` into `k` bytes (least-significant byte last),
as Go's `binary.BigEndian.PutUint32` / `PutUint64` produce. -/
def beBytes : Nat → Nat → List Nat
  | 0, _ => []
  | k + 1, n => beBytes k (n / 256) ++ [n % 256]

/-- Big-endian deserialization, as Go's `binary.BigEndian.Uint32` computes. -/
def beToNat (bs : List Nat) : Nat := bs.foldl (fun acc b => acc * 256 + b) 0

theorem beBytes_length (k n : Nat) : (beBytes k n).length = k := by
  induction k generalizing n with
  | zero => simp [beBytes]
  | succ k ih => simp [beBytes, ih]

theorem beToNat_beBytes (k n : Nat) : beToNat (beBytes k n) = n % 256 ^ k := by
  induction k generalizing n with
  | zero => simp [beBytes, beToNat, Nat.mod_one]
  | succ k ih =>
      have hsplit : beToNat (beBytes (k + 1) n)
          = beToNat (beBytes k (n / 256)) * 256 + n % 256 := by
        simp [beBytes, beToNat, List.foldl_append]
      rw [hsplit, ih]
      have h1 : n % (256 * 256 ^ k) % 256 = n % 256 :=
        Nat.mod_mod_of_dvd n (dvd_mul_right 256 (256 ^ k))
      have h2 : n % (256 * 256 ^ k) / 256 = n / 256 % 256 ^ k :=
        Nat.mod_mul_right_div_self n 256 (256 ^ k)
      have h3 := Nat.div_add_mod (n % (256 * 256 ^ k)) 256
      have hpow : (256 : Nat) ^ (k + 1) = 256 * 256 ^ k := by ring
      rw [hpow]
      omega

/-! SHA-256 (`crypto/sha256`), implemented over byte lists with 32-bit words
as naturals reduced mod `2^32`. -/

/-- Right rotation of a 32-bit word. -/
def rotr32 (n x : Nat) : Nat := w32 ((x >>> n) ||| (x <<< (32 - n)))

/-- Bitwise complement of a 32-bit word. -/
def not32 (x : Nat) : Nat := x ^^^ 4294967295

def bigSigma0 (x : Nat) : Nat := rotr32 2 x ^^^ rotr32 13 x ^^^ rotr32 22 x

def bigSigma1 (x : Nat) : Nat := rotr32 6 x ^^^ rotr32 11 x ^^^ rotr32 25 x

def smallSigma0 (x : Nat) : Nat := rotr32 7 x ^^^ rotr32 18 x ^^^ (x >>> 3)

def smallSigma1 (x : Nat) : Nat := rotr32 17 x ^^^ rotr32 19 x ^^^ (x >>> 10)

def chFn (x y z : Nat) : Nat := (x &&& y) ^^^ (not32 x &&& z)

def majFn (x y z : Nat) : Nat := (x &&& y) ^^^ (x &&& z) ^^^ (y &&& z)

/-- SHA-256 round constants. -/
def shaK : List Nat :=
  [1116352408, 1899447441, 3049323471, 3921009573, 961987163,
   1508970993, 2453635748, 2870763221, 3624381080, 310598401,
   607225278, 1426881987, 1925078388, 2162078206, 2614888103,
   3248222580, 3835390401, 4022224774, 264347078, 604807628,
   770255983, 1249150122, 1555081692, 1996064986, 2554220882,
   2821834349, 2952996808, 3210313671, 3336571891, 3584528711,
   113926993, 338241895, 666307205, 773529912, 1294757372,
   1396182291, 1695183700, 1986661051, 2177026350, 2456956037,
   2730485921, 2820302411, 3259730800, 3345764771, 3516065817,
   3600352804, 4094571909, 275423344, 430227734, 506948616,
   659060556, 883997877, 958139571, 1322822218, 1537002063,
   1747873779, 1955562222, 2024104815, 2227730452, 2361852424,
   2428436474, 2756734187, 3204031479, 3329325298]

/-- The eight 32-bit words of a SHA-256 state. -/
structure Hash8 where
  a : Nat
  b : Nat
  c : Nat
  d : Nat
  e : Nat
  f : Nat
  g : Nat
  hh : Nat
deriving Repr, DecidableEq

/-- Initial SHA-256 state. -/
def shaInit : Hash8 :=
  ⟨1779033703, 3144134277, 1013904242, 2773480762,
   1359893119, 2600822924, 528734635, 1541459225⟩

/-- Group a byte list into big-endian 32-bit words. -/
def toWords : List Nat → List Nat
  | b0 :: b1 :: b2 :: b3 :: rest =>
      (((b0 * 256 + b1) * 256 + b2) * 256 + b3) :: toWords rest
  | _ => []

/-- Extend the 16 words of a block to the 64-entry message schedule. -/
def msgSchedule (ws : List Nat) : List Nat :=
  (List.range 48).foldl
    (fun acc _ =>
      acc ++ [w32 (smallSigma1 (acc.getD (acc.length - 2) 0)
        + acc.getD (acc.length - 7) 0
        + smallSigma0 (acc.getD (acc.length - 15) 0)
        + acc.getD (acc.length - 16) 0)])
    ws

/-- One SHA-256 round, consuming a (constant, schedule word) pair. -/
def roundStep (st : Hash8) (kw : Nat × Nat) : Hash8 :=
  let t1 := st.hh + bigSigma1 st.e + chFn st.e st.f st.g + kw.1 + kw.2
  let t2 := bigSigma0 st.a + majFn st.a st.b st.c
  ⟨w32 (t1 + t2), st.a, st.b, st.c, w32 (st.d + t1), st.e, st.f, st.g⟩

/-- SHA-256 compression function on one 64-byte block. -/
def compressBlock (st : Hash8) (block : List Nat) : Hash8 :=
  let ws := msgSchedule (toWords block)
  let fin := (shaK.zip ws).foldl roundStep st
  ⟨w32 (st.a + fin.a), w32 (st.b + fin.b), w32 (st.c + fin.c), w32 (st.d + fin.d),
   w32 (st.e + fin.e), w32 (st.f + fin.f), w32 (st.g + fin.g), w32 (st.hh + fin.hh)⟩

/-- SHA-256 padding: append `0x80`, zeros, then the 64-bit bit length. -/
def padMsg (msg : List Nat) : List Nat :=
  let padZeros := (64 - (msg.length + 9) % 64) % 64
  msg ++ [128] ++ List.replicate padZeros 0 ++ beBytes 8 (msg.length * 8)

/-- Split a byte list into 64-byte blocks. -/
def toBlocks (l : List Nat) : List (List Nat) :=
  if _h : l.length = 0 then [] else l.take 64 :: toBlocks (l.drop 64)
termination_by l.length
decreasing_by simp [List.length_drop]; omega

/-- Serialize a SHA-256 state to its 32 output bytes. -/
def hashBytes (st : Hash8) : List Nat :=
  beBytes 4 st.a ++ beBytes 4 st.b ++ beBytes 4 st.c ++ beBytes 4 st.d ++
  beBytes 4 st.e ++ beBytes 4 st.f ++ beBytes 4 st.g ++ beBytes 4 st.hh

/-- SHA-256 digest of a byte list, as Go's `sha256.Sum256`. -/
def sha256 (msg : List Nat) : List Nat :=
  hashBytes ((toBlocks (padMsg msg)).foldl compressBlock shaInit)

theorem hashBytes_length (st : Hash8) : (hashBytes st).length = 32 := by
  simp [hashBytes, beBytes_length]

theorem sha256_length (msg : List Nat) : (sha256 msg).length = 32 :=
  hashBytes_length _

/-- Lowercase hex digit for a value below 16, as Go's `encoding/hex` uses. -/
def hexDigit (n : Nat) : Char :=
  if n < 10 then Char.ofNat (48 + n) else Char.ofNat (87 + n)

/-- Lowercase hex string of a byte list, as Go's `hex.EncodeToString`. -/
def hexEncode (bs : List Nat) : String :=
  String.mk (bs.foldr (fun b acc => hexDigit (b / 16) :: hexDigit (b % 16) :: acc) [])

/-! Constants from `src/unnamed/part_002` (p2p constants file). -/

def DefaultChunkSize : Nat := 32 * 1024 * 1024

def MaxRetries : Nat := 3

def ChunkBufferSize : Nat := 32 * 1024

/-! Protocol messages, from the `messages` source shown in
`src/LanDrop_Journey_to_High_Performance.md`. -/

def MessageTransferRequest : String := "TRANSFER_REQUEST"

def MessageTransferResponse : String := "TRANSFER_RESPONSE"

def MessageChunkData : String := "CHUNK_DATA"

/-- The `TransferResponse` message: `{type, accepted, resume_chunks, rejection_msg}`. -/
structure TransferResponse where
  type : String
  Accepted : Bool
  ResumeChunks : List Nat
  RejectionMsg : String
deriving Repr, DecidableEq

/-- The `NewTransferResponse` constructor. -/
def NewTransferResponse (accepted : Bool) (resumeChunks : List Nat)
    (rejectionMsg : String) : TransferResponse :=
  ⟨MessageTransferResponse, accepted, resumeChunks, rejectionMsg⟩

/-- The `ChunkData` record returned by `receiveChunkReliably`; the checksum is
kept as a hex string, as in the source. -/
structure ChunkData where
  type : String
  ChunkIndex : Nat
  ChunkSize : Nat
  Data : List Nat
  Checksum : String
deriving Repr, DecidableEq

/-! Chunk frame codec, from `sendChunkReliably` and `receiveChunkReliably`
in `src/p2p/chunked_transfer.go`. The sender writes a 40-byte header
`[uint32 index][uint32 size][32-byte sha256]` followed by the payload. -/

/-- Header built by `sendChunkReliably` (lines 91-98): 4-byte big-endian
`uint32(chunkIndex)`, 4-byte big-endian `uint32(len(data))`, 32-byte raw
SHA-256 digest of the payload. -/
def chunkHeader (chunkIndex : Nat) (data : List Nat) : List Nat :=
  beBytes 4 chunkIndex ++ beBytes 4 data.length ++ sha256 data

/-- Bytes carried on a data substream for one chunk: header then payload. -/
def chunkFrame (chunkIndex : Nat) (data : List Nat) : List Nat :=
  chunkHeader chunkIndex data ++ data

/-- A frame whose embedded checksum field is arbitrary (models in-transit
corruption of the digest or payload relative to each other). -/
def chunkFrameWithChecksum (chunkIndex : Nat) (checksum data : List Nat) : List Nat :=
  beBytes 4 chunkIndex ++ beBytes 4 data.length ++ checksum ++ data

/-- Result of `receiveChunkReliably`: the decoded chunk (if any), the
acknowledgement bytes that reached the stream, and warnings printed. -/
structure RecvOutcome where
  result : Option ChunkData
  ackBytes : List Nat
  logs : List String
deriving Repr, DecidableEq

/-- Embedding of `receiveChunkReliably` (lines 128-174): read a 40-byte
header, check the index against `expectedChunkIndex`, read `dataSize` bytes,
verify the SHA-256 checksum, then attempt to write the `1` acknowledgement
byte; a failed acknowledgement write (`ackOk = false`) is only logged. -/
def receiveChunkReliably (stream : List Nat) (expectedChunkIndex : Nat)
    (ackOk : Bool) : RecvOutcome :=
  if stream.length < 40 then ⟨none, [], []⟩
  else
    let header := stream.take 40
    let receivedChunkIndex := beToNat (header.take 4)
    let dataSize := beToNat ((header.drop 4).take 4)
    let receivedChecksum := header.drop 8
    if receivedChunkIndex ≠ expectedChunkIndex then ⟨none, [], []⟩
    else
      let rest := stream.drop 40
      if rest.length < dataSize then ⟨none, [], []⟩
      else
        let data := rest.take dataSize
        if sha256 data ≠ receivedChecksum then ⟨none, [], []⟩
        else
          { result := some ⟨MessageChunkData, receivedChunkIndex, dataSize, data,
              hexEncode receivedChecksum⟩,
            ackBytes := if ackOk then [1] else [],
            logs := if ackOk then [] else ["Warning: failed to send acknowledgment"] }

/-! Chunk planner, from `getRequiredChunks` (lines 542-566). The on-disk
state of `received_<filename>` is passed in as `existingSize` (`none` when
`os.Stat` fails because the file is absent). -/

/-- Embedding of `getRequiredChunks`: whole chunks already on disk are
skipped; a partial final chunk does not count. -/
def getRequiredChunks (existingSize : Option Nat) (fileSize chunkSize : Nat) :
    List Nat :=
  let totalChunks := (fileSize + chunkSize - 1) / chunkSize
  match existingSize with
  | some p =>
      let existingChunks := p / chunkSize
      (List.range totalChunks).filter (fun i => existingChunks ≤ i)
  | none => List.range totalChunks

/-- Embedding of `verifyFileIntegrity` (lines 569-583): `none` models a file
that cannot be opened; otherwise the whole-file SHA-256 is hex-encoded and
compared with the expected hex string. -/
def verifyFileIntegrity (fileBytes : Option (List Nat)) (expectedHash : String) :
    Bool :=
  match fileBytes with
  | none => false
  | some bs => hexEncode (sha256 bs) == expectedHash

/-- Model of Go's `strings.ToLower` over the string's characters. -/
def lowerStr (s : String) : String := String.mk (s.data.map Char.toLower)

/-- Model of Go's `strings.TrimSpace`: drop leading and trailing whitespace. -/
def trimSpaceStr (s : String) : String :=
  String.mk (((s.data.dropWhile Char.isWhitespace).reverse.dropWhile
    Char.isWhitespace).reverse)

/-- Embedding of `promptForTransferConfirmation` (lines 586-627): `userInput`
is the line read from stdin (`none` models a read error); in test mode the
transfer is auto-accepted. -/
def promptForTransferConfirmation (testMode : Bool) (userInput : Option String) :
    Bool × String :=
  if testMode then (true, "")
  else
    match userInput with
    | none => (false, "Error reading user response")
    | some line =>
        let response := trimSpaceStr (lowerStr line)
        if response = "yes" ∨ response = "y" then (true, "")
        else if response = "no" ∨ response = "n" then (false, "User rejected the transfer")
        else (false, "User provided invalid response")

/-- Positional write (`os.File.WriteAt`) on a file opened with
`O_CREATE|O_WRONLY`: bytes beyond the old end that the write skips over read
back as zeros. -/
def writeAt (file : List Nat) (offset : Nat) (data : List Nat) : List Nat :=
  (List.range (max file.length (offset + data.length))).map fun i =>
    if offset ≤ i ∧ i < offset + data.length then data.getD (i - offset) 0
    else file.getD i 0

/-- Receiver chunk loop of `ReceiveFileChunked` (lines 468-517): position
`k` accepts the next substream, decodes it with expected index `k`, and
writes the payload at `resume_chunks[k] * chunkSize`. Returns the outcome,
the final file bytes, and the trace of positional writes performed. -/
def receiveChunksLoop (chunkSize : Nat) :
    Nat → List Nat → List (List Nat) → List Bool → List Nat →
    Except String Unit × List Nat × List (Nat × List Nat)
  | _, [], _, _, file => (Except.ok (), file, [])
  | k, chunkIndex :: restChunks, streams, ackOks, file =>
      match streams with
      | [] => (Except.error "failed to accept chunk stream", file, [])
      | s :: restStreams =>
          match (receiveChunkReliably s k (ackOks.getD 0 true)).result with
          | none => (Except.error "failed to receive chunk", file, [])
          | some chunk =>
              let offset := chunkIndex * chunkSize
              let next := receiveChunksLoop chunkSize (k + 1) restChunks
                restStreams (ackOks.drop 1) (writeAt file offset chunk.Data)
              (next.1, next.2.1, (offset, chunk.Data) :: next.2.2)

/-- Accepted-transfer portion of `ReceiveFileChunked` after the response is
sent: run the chunk loop, then verify whole-file integrity (lines 521-536).
Every outcome carries the on-disk file bytes; no path removes the file. -/
def receiveSession (resumeChunks : List Nat) (chunkSize : Nat)
    (streams : List (List Nat)) (ackOks : List Bool) (file0 : List Nat)
    (expectedHash : String) : Except String Unit × List Nat :=
  match receiveChunksLoop chunkSize 0 resumeChunks streams ackOks file0 with
  | (Except.error e, file, _) => (Except.error e, file)
  | (Except.ok _, file, _) =>
      if verifyFileIntegrity (some file) expectedHash then (Except.ok (), file)
      else (Except.error "file integrity verification failed", file)

/-- Outcome of `ReceiveFileChunked` from the confirmation prompt onward
(lines 420-538): the response is built from the planner output whether or
not the user accepts; a rejection returns an error (line 453). -/
def receiveFileChunkedOutcome (testMode : Bool) (userInput : Option String)
    (existingSize : Option Nat) (fileSize chunkSize : Nat)
    (streams : List (List Nat)) (ackOks : List Bool) (file0 : List Nat)
    (expectedHash : String) : Except String Unit × List Nat :=
  let pr := promptForTransferConfirmation testMode userInput
  let response := NewTransferResponse pr.1
    (getRequiredChunks existingSize fileSize chunkSize) pr.2
  if !pr.1 then (Except.error ("transfer rejected: " ++ pr.2), file0)
  else receiveSession response.ResumeChunks chunkSize streams ackOks file0 expectedHash

/-- Sender chunk loop of `SendFileChunked` (lines 292-331): position `i` in
the resume list computes `offset = chunkIndex * chunkSize`, skips empty
chunks, and sends `chunkFrame i payload` — the identity passed to
`sendChunkWithRetry` is the position `i`, not `chunkIndex`. Returns the
(identity, payload) pairs in send order. -/
def sendLoop (file : List Nat) (chunkSize : Nat) :
    Nat → List Nat → List (Nat × List Nat)
  | _, [] => []
  | i, chunkIndex :: rest =>
      let offset := chunkIndex * chunkSize
      if file.length ≤ offset then sendLoop file chunkSize (i + 1) rest
      else
        let remaining := min chunkSize (file.length - offset)
        (i, (file.drop offset).take remaining) :: sendLoop file chunkSize (i + 1) rest

/-- Response handling of `SendFileChunked` (lines 281-343): a rejected
response returns success with nothing sent; an accepted one sends the loop's
frames. -/
def sendFileChunkedOutcome (response : TransferResponse) (file : List Nat)
    (chunkSize : Nat) : Except String Unit × List (Nat × List Nat) :=
  if !response.Accepted then (Except.ok (), [])
  else (Except.ok (), sendLoop file chunkSize 0 response.ResumeChunks)

/-- Ack handling of `sendChunkReliably` (lines 112-122): the send succeeds
iff one acknowledgement byte is read and equals `1`. -/
def sendChunkAckCheck (ackRead : Option Nat) : Bool :=
  match ackRead with
  | none => false
  | some b => b == 1

/-- Attempt loop of `sendChunkWithRetry` (lines 32-74): up to `attempts`
tries, each re-sending `chunkFrame chunkIndex data` and checking that
attempt's acknowledgement; returns success and the frames put on the wire. -/
def sendChunkAttempts (chunkIndex : Nat) (data : List Nat) :
    Nat → List (Option Nat) → Bool × List (List Nat)
  | 0, _ => (false, [])
  | n + 1, acks =>
      let frame := chunkFrame chunkIndex data
      if sendChunkAckCheck (acks.getD 0 none) then (true, [frame])
      else
        let next := sendChunkAttempts chunkIndex data n (acks.drop 1)
        (next.1, frame :: next.2)

/-- Embedding of `sendChunkWithRetry` with the configured `MaxRetries`. -/
def sendChunkWithRetry (chunkIndex : Nat) (data : List Nat)
    (acks : List (Option Nat)) : Bool × List (List Nat) :=
  sendChunkAttempts chunkIndex data MaxRetries acks

/-- Observable receiver-side events for one chunk substream. -/
inductive RecvEvent where
  | ackWrite (b : Nat)
  | fileWrite (offset : Nat) (data : List Nat)
deriving Repr, DecidableEq

/-- Event order for one accepted substream: `receiveChunkReliably` writes the
acknowledgement before returning (line 160), then `ReceiveFileChunked`
performs the positional write (line 494); `writeOk = false` models a failed
`WriteAt`. -/
def receiveChunkStep (stream : List Nat) (positionIndex chunkIndex chunkSize : Nat)
    (writeOk : Bool) : List RecvEvent :=
  match (receiveChunkReliably stream positionIndex true).result with
  | none => []
  | some chunk =>
      RecvEvent.ackWrite 1 ::
        (if writeOk then [RecvEvent.fileWrite (chunkIndex * chunkSize) chunk.Data] else [])

/-! Buffer pool, from `src/p2p/buffer_pool.go`. Go slices are modelled as a
backing array plus a length; the capacity is the backing length. The
`sync.Pool` is modelled as a deterministic stack of stored slices. -/

/-- A Go byte slice: backing array contents and slice length. -/
structure GoSlice where
  backing : List Nat
  len : Nat
deriving Repr, DecidableEq

/-- The bytes visible through the slice. -/
def GoSlice.bytes (s : GoSlice) : List Nat := s.backing.take s.len

/-- Go `cap` of the modelled slice. -/
def GoSlice.capacity (s : GoSlice) : Nat := s.backing.length

/-- Embedding of `BufferPool`. -/
structure BufferPool where
  bufferSize : Nat
  store : List GoSlice
deriving Repr, DecidableEq

/-- Embedding of `NewBufferPool`. -/
def NewBufferPool (bufferSize : Nat) : BufferPool := ⟨bufferSize, []⟩

/-- Embedding of `BufferPool.Get`: a stored slice if available, otherwise a
fresh full-length buffer from the pool's `New`. -/
def BufferPool.Get (bp : BufferPool) : GoSlice × BufferPool :=
  match bp.store with
  | [] => (⟨List.replicate bp.bufferSize 0, bp.bufferSize⟩, bp)
  | b :: rest => (b, ⟨bp.bufferSize, rest⟩)

/-- Embedding of `BufferPool.Put` (lines 27-32): only a full slice
(`cap == len`) is stored, re-sliced to length zero. -/
def BufferPool.Put (bp : BufferPool) (buffer : GoSlice) : BufferPool :=
  if buffer.capacity = buffer.len then ⟨bp.bufferSize, ⟨buffer.backing, 0⟩ :: bp.store⟩
  else bp

/-- Go re-slicing `s[:n]`, legal up to the capacity. -/
def resliceTo (s : GoSlice) (n : Nat) : Option GoSlice :=
  if n ≤ s.backing.length then some ⟨s.backing, n⟩ else none

/-- A successful `io.ReadFull(file, s)`: the slice's `len` bytes are
replaced by the source bytes. -/
def readFullInto (s : GoSlice) (src : List Nat) : GoSlice :=
  ⟨src.take s.len ++ s.backing.drop s.len, s.len⟩

/-- Buffer handling of one `sendChunkWithRetry` attempt (lines 44-66): use a
pooled buffer for sizes at or below `ChunkBufferSize`, re-sliced to `size`,
fill it from the file, send `chunkData[:bytesRead]`, and return the original
slice to the pool. Returns the bytes sent and the pool afterwards; `none`
models the out-of-capacity slicing panic, which the source never triggers. -/
def chunkReadAndSendBytes (pool : BufferPool) (size : Nat) (fileChunk : List Nat) :
    Option (List Nat × BufferPool) :=
  if size ≤ ChunkBufferSize then
    let gp := pool.Get
    match resliceTo gp.1 size with
    | none => none
    | some view =>
        let filled := readFullInto view fileChunk
        some (filled.bytes, gp.2.Put ⟨filled.backing, gp.1.len⟩)
  else
    let buf : GoSlice := ⟨List.replicate size 0, size⟩
    let filled := readFullInto buf fileChunk
    some (filled.bytes, pool)

/-! Evaluation lemmas for the chunk-frame codec. -/

theorem chunkFrame_eq_withChecksum (i : Nat) (d : List Nat) :
    chunkFrame i d = chunkFrameWithChecksum i (sha256 d) d := by
  simp [chunkFrame, chunkHeader, chunkFrameWithChecksum]

theorem receiveChunk_frame_eval (i : Nat) (chk d : List Nat) (expected : Nat)
    (ackOk : Bool) (hchk : chk.length = 32) (hd : d.length < 4294967296) :
    receiveChunkReliably (chunkFrameWithChecksum i chk d) expected ackOk =
      if i % 4294967296 ≠ expected then ⟨none, [], []⟩
      else if sha256 d ≠ chk then ⟨none, [], []⟩
      else ⟨some ⟨MessageChunkData, i % 4294967296, d.length, d, hexEncode chk⟩,
            if ackOk then [1] else [],
            if ackOk then [] else ["Warning: failed to send acknowledgment"]⟩ := by
  have h4i : (beBytes 4 i).length = 4 := beBytes_length 4 i
  have h4l : (beBytes 4 d.length).length = 4 := beBytes_length 4 _
  have hF : chunkFrameWithChecksum i chk d
      = (beBytes 4 i ++ (beBytes 4 d.length ++ chk)) ++ d := by
    simp [chunkFrameWithChecksum]
  have hHlen : (beBytes 4 i ++ (beBytes 4 d.length ++ chk)).length = 40 := by
    simp [h4i, h4l, hchk]
  have hFlen : (chunkFrameWithChecksum i chk d).length = 40 + d.length := by
    rw [hF, List.length_append, hHlen]
  have htake : (chunkFrameWithChecksum i chk d).take 40
      = beBytes 4 i ++ (beBytes 4 d.length ++ chk) := by
    rw [hF]
    exact List.take_left' hHlen
  have hdrop : (chunkFrameWithChecksum i chk d).drop 40 = d := by
    rw [hF]
    exact List.drop_left' hHlen
  have htake4 : (beBytes 4 i ++ (beBytes 4 d.length ++ chk)).take 4 = beBytes 4 i :=
    List.take_left' h4i
  have hdrop4 : (beBytes 4 i ++ (beBytes 4 d.length ++ chk)).drop 4
      = beBytes 4 d.length ++ chk := List.drop_left' h4i
  have htake4b : (beBytes 4 d.length ++ chk).take 4 = beBytes 4 d.length :=
    List.take_left' h4l
  have hdrop8 : (beBytes 4 i ++ (beBytes 4 d.length ++ chk)).drop 8 = chk := by
    have hre : beBytes 4 i ++ (beBytes 4 d.length ++ chk)
        = (beBytes 4 i ++ beBytes 4 d.length) ++ chk := by
      simp [List.append_assoc]
    rw [hre]
    exact List.drop_left' (by simp [h4i, h4l])
  have hbi : beToNat (beBytes 4 i) = i % 4294967296 := by
    rw [beToNat_beBytes]
    norm_num
  have hbl : beToNat (beBytes 4 d.length) = d.length := by
    rw [beToNat_beBytes]
    norm_num
    exact hd
  simp only [receiveChunkReliably, hFlen, htake, hdrop, htake4, hdrop4, htake4b,
    hdrop8, hbi, hbl]
  rw [if_neg (by omega)]
  rw [if_neg (by omega : ¬ d.length < d.length)]
  rw [List.take_length]

theorem receiveChunk_chunkFrame_ok (i : Nat) (d : List Nat) (ackOk : Bool)
    (hi : i < 4294967296) (hd : d.length < 4294967296) :
    receiveChunkReliably (chunkFrame i d) i ackOk =
      ⟨some ⟨MessageChunkData, i, d.length, d, hexEncode (sha256 d)⟩,
       if ackOk then [1] else [],
       if ackOk then [] else ["Warning: failed to send acknowledgment"]⟩ := by
  rw [chunkFrame_eq_withChecksum,
    receiveChunk_frame_eval i (sha256 d) d i ackOk (sha256_length d) hd,
    Nat.mod_eq_of_lt hi]
  simp

theorem receiveChunk_chunkFrame_wrongIndex (i expected : Nat) (d : List Nat)
    (ackOk : Bool) (hd : d.length < 4294967296)
    (hne : i % 4294967296 ≠ expected) :
    receiveChunkReliably (chunkFrame i d) expected ackOk = ⟨none, [], []⟩ := by
  rw [chunkFrame_eq_withChecksum,
    receiveChunk_frame_eval i (sha256 d) d expected ackOk (sha256_length d) hd,
    if_pos hne]

/-- C1: the claim states a fixed 44-byte chunk header with an 8-byte
big-endian identity, so that identities above `2^32` round-trip. The code
(`sendChunkReliably` line 92-94) builds a 40-byte header with the identity
truncated to `uint32`: for identity `2^32` the frame's header is 40 bytes,
its identity field decodes to `0`, and `receiveChunkReliably` with expected
identity `2^32` rejects the frame. -/
theorem C1_header_is_40_bytes_and_truncates_identity :
    (chunkHeader 4294967296 [37]).length = 40
    ∧ beToNat ((chunkFrame 4294967296 [37]).take 4) = 0
    ∧ (receiveChunkReliably (chunkFrame 4294967296 [37]) 4294967296 true).result
        = none := by
  refine ⟨?_, ?_, ?_⟩
  · simp [chunkHeader, beBytes_length, sha256_length]
  · have hcf : chunkFrame 4294967296 [37]
        = beBytes 4 4294967296 ++ (beBytes 4 1 ++ (sha256 [37] ++ [37])) := by
      simp [chunkFrame, chunkHeader]
    rw [hcf, List.take_left' (beBytes_length 4 4294967296), beToNat_beBytes]
    norm_num
  · rw [receiveChunk_chunkFrame_wrongIndex 4294967296 4294967296 [37] true
      (by decide) (by decide)]

/-- C8: decoding an encoded chunk frame for `(i, D)` with expected identity
`i` yields exactly the chunk `(i, D)` when, and only when, the checksum
embedded in the header equals `sha256 D`; when it does not, decoding fails
and no `0x01` acknowledgement byte is produced. -/
theorem C8_decode_encode_iff_digest_matches (i : Nat) (chk D : List Nat)
    (hi : i < 4294967296) (hchk : chk.length = 32) (hD : D.length < 4294967296) :
    ((receiveChunkReliably (chunkFrameWithChecksum i chk D) i true).result
        = some ⟨MessageChunkData, i, D.length, D, hexEncode chk⟩ ↔ chk = sha256 D)
    ∧ (chk ≠ sha256 D →
        (receiveChunkReliably (chunkFrameWithChecksum i chk D) i true).result = none
        ∧ (receiveChunkReliably (chunkFrameWithChecksum i chk D) i true).ackBytes
            = []) := by
  have heval := receiveChunk_frame_eval i chk D i true hchk hD
  rw [Nat.mod_eq_of_lt hi] at heval
  rw [if_neg (by simp)] at heval
  by_cases hcs : sha256 D = chk
  · rw [if_neg (by simp [hcs])] at heval
    refine ⟨?_, fun hne => absurd hcs.symm hne⟩
    rw [heval]
    simp [hcs]
  · rw [if_pos (by simp [hcs])] at heval
    refine ⟨?_, fun _ => by rw [heval]; exact ⟨rfl, rfl⟩⟩
    rw [heval]
    simp
    intro h
    exact absurd h.symm hcs

/-- Witness for C8 at `i = 1`, `D = [5]`, matching checksum. -/
theorem C8_decode_encode_iff_digest_matches_witness :
    (receiveChunkReliably (chunkFrameWithChecksum 1 (sha256 [5]) [5]) 1 true).result
        = some ⟨MessageChunkData, 1, 1, [5], hexEncode (sha256 [5])⟩ := by
  have h := (C8_decode_encode_iff_digest_matches 1 (sha256 [5]) [5]
    (by decide) (sha256_length [5]) (by decide)).1
  simpa using h.mpr rfl

/-- C3: for chunk sizes above zero, the planner returns exactly the
identities from `⌊P/chunk_size⌋` (with `P = 0` for an absent file) up to
`⌈filesize/chunk_size⌉ - 1`, ascending and duplicate-free, every identity
below the total chunk count; a partial final chunk on disk is not counted
as present. -/
theorem C3_planner_required_chunks (existingSize : Option Nat)
    (fileSize chunkSize : Nat) (hcs : 0 < chunkSize) :
    getRequiredChunks existingSize fileSize chunkSize
      = List.range' (existingSize.getD 0 / chunkSize)
          ((fileSize + chunkSize - 1) / chunkSize - existingSize.getD 0 / chunkSize)
    ∧ List.Pairwise (· < ·) (getRequiredChunks existingSize fileSize chunkSize)
    ∧ ∀ idx ∈ getRequiredChunks existingSize fileSize chunkSize,
        idx < (fileSize + chunkSize - 1) / chunkSize := by
  have _ := hcs
  have key : ∀ total pc : Nat,
      (List.range total).filter (fun i => decide (pc ≤ i))
        = List.range' pc (total - pc) := by
    intro total pc
    by_cases hpt : pc ≤ total
    · have hsplit : List.range total = List.range' 0 pc ++ List.range' pc (total - pc) := by
        have happ := List.range'_append_1 0 pc (total - pc)
        rw [Nat.zero_add] at happ
        rw [List.range_eq_range', happ]
        congr 1
        omega
      rw [hsplit, List.filter_append]
      have h1 : (List.range' 0 pc).filter (fun i => decide (pc ≤ i)) = [] := by
        rw [List.filter_eq_nil_iff]
        intro a ha
        rw [List.mem_range'_1] at ha
        simp
        omega
      have h2 : (List.range' pc (total - pc)).filter (fun i => decide (pc ≤ i))
          = List.range' pc (total - pc) := by
        rw [List.filter_eq_self]
        intro a ha
        rw [List.mem_range'_1] at ha
        simp
        omega
      rw [h1, h2, List.nil_append]
    · have h1 : (List.range total).filter (fun i => decide (pc ≤ i)) = [] := by
        rw [List.filter_eq_nil_iff]
        intro a ha
        rw [List.mem_range] at ha
        simp
        omega
      have h2 : total - pc = 0 := by omega
      rw [h1, h2]
      rfl
  have main : getRequiredChunks existingSize fileSize chunkSize
      = List.range' (existingSize.getD 0 / chunkSize)
          ((fileSize + chunkSize - 1) / chunkSize - existingSize.getD 0 / chunkSize) := by
    match existingSize with
    | some p => exact key _ _
    | none =>
        simp only [getRequiredChunks, Option.getD, Nat.zero_div, Nat.sub_zero]
        exact List.range_eq_range' _
  refine ⟨main, ?_, ?_⟩
  · rw [main]
    exact List.pairwise_lt_range' _ _
  · rw [main]
    intro idx hidx
    rw [List.mem_range'_1] at hidx
    omega

/-- Witness for C3: a 3072-byte file in 1024-byte chunks with 1500 bytes on
disk requires exactly chunks 1 and 2 (the partial second chunk is re-sent). -/
theorem C3_planner_required_chunks_witness :
    0 < 1024 ∧ getRequiredChunks (some 1500) 3072 1024 = List.range' 1 2 := by
  refine ⟨by decide, ?_⟩
  have h := (C3_planner_required_chunks (some 1500) 3072 1024 (by decide)).1
  simpa using h

/-! Sender/receiver alignment (C2). -/

theorem sendRecv_aligned (file : List Nat) (chunkSize : Nat)
    (hcs : chunkSize < 4294967296) :
    ∀ (resumeChunks : List Nat) (k : Nat) (file0 : List Nat) (ackOks : List Bool),
      k + resumeChunks.length ≤ 4294967296 →
      (∀ c ∈ resumeChunks, c * chunkSize < file.length) →
      (sendLoop file chunkSize k resumeChunks).map Prod.fst
          = List.range' k resumeChunks.length
      ∧ (receiveChunksLoop chunkSize k resumeChunks
            ((sendLoop file chunkSize k resumeChunks).map fun p => chunkFrame p.1 p.2)
            ackOks file0).1 = Except.ok ()
      ∧ (receiveChunksLoop chunkSize k resumeChunks
            ((sendLoop file chunkSize k resumeChunks).map fun p => chunkFrame p.1 p.2)
            ackOks file0).2.2
          = List.zipWith (fun c p => (c * chunkSize, p.2)) resumeChunks
              (sendLoop file chunkSize k resumeChunks) := by
  intro resumeChunks
  induction resumeChunks with
  | nil =>
      intro k file0 ackOks hk hin
      exact ⟨rfl, rfl, rfl⟩
  | cons c rest ih =>
      intro k file0 ackOks hk hin
      have hc : c * chunkSize < file.length := hin c (List.mem_cons_self c rest)
      have hnotle : ¬ file.length ≤ c * chunkSize := by omega
      have hk1 : (k + 1) + rest.length ≤ 4294967296 := by
        rw [List.length_cons] at hk
        omega
      have hkx : k < 4294967296 := by
        rw [List.length_cons] at hk
        omega
      have hin1 : ∀ x ∈ rest, x * chunkSize < file.length :=
        fun x hx => hin x (List.mem_cons_of_mem c hx)
      set d := (file.drop (c * chunkSize)).take
        (min chunkSize (file.length - c * chunkSize)) with hdDef
      have hdlen : d.length < 4294967296 := by
        have h1 : d.length ≤ min chunkSize (file.length - c * chunkSize) := by
          rw [hdDef, List.length_take]
          exact Nat.min_le_left _ _
        have h2 : min chunkSize (file.length - c * chunkSize) ≤ chunkSize :=
          Nat.min_le_left _ _
        omega
      have hsl : sendLoop file chunkSize k (c :: rest)
          = (k, d) :: sendLoop file chunkSize (k + 1) rest := by
        simp [sendLoop, hnotle, hdDef]
      have hdec := receiveChunk_chunkFrame_ok k d (ackOks.getD 0 true) hkx hdlen
      obtain ⟨ih1, ih2, ih3⟩ := ih (k + 1) (writeAt file0 (c * chunkSize) d)
        (ackOks.drop 1) hk1 hin1
      refine ⟨?_, ?_, ?_⟩
      · rw [hsl, List.map_cons]
        simp only [Prod.fst]
        rw [ih1, List.length_cons, List.range'_succ]
      · rw [hsl, List.map_cons]
        simp only [receiveChunksLoop, hdec]
        exact ih2
      · rw [hsl, List.map_cons]
        simp only [receiveChunksLoop, hdec]
        rw [List.zipWith_cons_cons]
        simp only [Prod.snd]
        rw [ih3]

/-- C2: for every accepted transfer (resume list inside the planner's range)
the sender passes the position index `k` — not the chunk identity — as the
identity in the `k`-th frame; the receiver's expected-identity check at
position `k` compares against `k` and succeeds on every frame, and the
`k`-th payload is written positionally at `resume_chunks[k] * chunk_size`. -/
theorem C2_position_index_and_offsets (file : List Nat) (chunkSize : Nat)
    (resumeChunks : List Nat) (file0 : List Nat) (ackOks : List Bool)
    (hcs : chunkSize < 4294967296)
    (hlen : resumeChunks.length ≤ 4294967296)
    (hin : ∀ c ∈ resumeChunks, c * chunkSize < file.length) :
    (sendLoop file chunkSize 0 resumeChunks).map Prod.fst
        = List.range resumeChunks.length
    ∧ (receiveChunksLoop chunkSize 0 resumeChunks
          ((sendLoop file chunkSize 0 resumeChunks).map fun p => chunkFrame p.1 p.2)
          ackOks file0).1 = Except.ok ()
    ∧ (receiveChunksLoop chunkSize 0 resumeChunks
          ((sendLoop file chunkSize 0 resumeChunks).map fun p => chunkFrame p.1 p.2)
          ackOks file0).2.2
        = List.zipWith (fun c p => (c * chunkSize, p.2)) resumeChunks
            (sendLoop file chunkSize 0 resumeChunks)
    ∧ ∀ (j expect : Nat) (d2 : List Nat) (ack : Bool),
        d2.length < 4294967296 → j % 4294967296 ≠ expect →
        (receiveChunkReliably (chunkFrame j d2) expect ack).result = none := by
  obtain ⟨h1, h2, h3⟩ := sendRecv_aligned file chunkSize hcs resumeChunks 0 file0
    ackOks (by omega) hin
  refine ⟨by rw [h1, List.range_eq_range'], h2, h3, ?_⟩
  intro j expect d2 ack hd2 hne
  rw [receiveChunk_chunkFrame_wrongIndex j expect d2 ack hd2 hne]

/-- Witness for C2: a 3072-byte file, chunk size 1024, resume list `[1, 2]`;
the identities put in the frames are the positions `0, 1`. -/
theorem C2_position_index_and_offsets_witness :
    (sendLoop (List.replicate 3072 7) 1024 0 [1, 2]).map Prod.fst = List.range 2 := by
  have h := (C2_position_index_and_offsets (List.replicate 3072 7) 1024 [1, 2] [] []
    (by decide) (by decide) (by intro c hc; rw [List.length_replicate]; fin_cases hc <;> omega)).1
  simpa using h

/-- C4: the receiver's session succeeds exactly when the chunk loop
completed and the recomputed whole-file SHA-256 hex digest equals the
request's digest; a mismatch yields the integrity error, and in every
outcome — mismatch or any other failure — the output file is exactly what
the loop's positional writes produced (never deleted or truncated). -/
theorem C4_success_iff_digest_and_file_retained (resumeChunks : List Nat)
    (chunkSize : Nat) (streams : List (List Nat)) (ackOks : List Bool)
    (file0 : List Nat) (expectedHash : String) :
    (receiveSession resumeChunks chunkSize streams ackOks file0 expectedHash).2
      = (receiveChunksLoop chunkSize 0 resumeChunks streams ackOks file0).2.1
    ∧ ((receiveChunksLoop chunkSize 0 resumeChunks streams ackOks file0).1
          = Except.ok () →
        ((receiveSession resumeChunks chunkSize streams ackOks file0 expectedHash).1
            = Except.ok ()
          ↔ hexEncode (sha256
              ((receiveChunksLoop chunkSize 0 resumeChunks streams ackOks file0).2.1))
              = expectedHash)
        ∧ (hexEncode (sha256
              ((receiveChunksLoop chunkSize 0 resumeChunks streams ackOks file0).2.1))
              ≠ expectedHash →
            (receiveSession resumeChunks chunkSize streams ackOks file0 expectedHash).1
              = Except.error "file integrity verification failed")) := by
  rcases hloop : receiveChunksLoop chunkSize 0 resumeChunks streams ackOks file0
    with ⟨r, f, tr⟩
  unfold receiveSession
  rw [hloop]
  cases r with
  | error e =>
      refine ⟨rfl, fun hok => ?_⟩
      simp at hok
  | ok u =>
      by_cases hv : hexEncode (sha256 f) = expectedHash
      · have hvb : verifyFileIntegrity (some f) expectedHash = true := by
          simp [verifyFileIntegrity, hv]
        refine ⟨?_, fun _ => ⟨?_, fun hne => absurd hv hne⟩⟩
        · simp [hvb]
        · simp [hvb, hv]
      · have hvb : verifyFileIntegrity (some f) expectedHash = false := by
          simp [verifyFileIntegrity, hv]
        refine ⟨?_, fun _ => ⟨?_, fun _ => ?_⟩⟩
        · simp [hvb]
        · simp [hvb, hv]
        · simp [hvb]

/-- C5 counterexample: the receiver builds the rejected response with the
planner's chunk list (`ReceiveFileChunked` line 422), so rejecting a fresh
1024-byte transfer with chunk size 512 carries `resume_chunks = [0, 1]`,
not the empty list the claim requires. -/
theorem C5_counterexample_rejected_response_has_chunks :
    (promptForTransferConfirmation false (some "no\x0a")).1 = false
    ∧ NewTransferResponse (promptForTransferConfirmation false (some "no\x0a")).1
        (getRequiredChunks none 1024 512)
        (promptForTransferConfirmation false (some "no\x0a")).2
      = ⟨MessageTransferResponse, false, [0, 1], "User rejected the transfer"⟩
    ∧ ([0, 1] : List Nat) ≠ [] := by
  refine ⟨by decide, by decide, by decide⟩

/-- C5 as amended: a response the receiver constructs with `accepted = false`
always has a non-empty rejection reason, but its `resume_chunks` list is the
planner's required-chunk list, computed whether or not the user accepts. -/
theorem C5_rejection_reason_nonempty (testMode : Bool) (userInput : Option String)
    (existingSize : Option Nat) (fileSize chunkSize : Nat)
    (hrej : (promptForTransferConfirmation testMode userInput).1 = false) :
    (NewTransferResponse (promptForTransferConfirmation testMode userInput).1
        (getRequiredChunks existingSize fileSize chunkSize)
        (promptForTransferConfirmation testMode userInput).2).RejectionMsg ≠ ""
    ∧ (NewTransferResponse (promptForTransferConfirmation testMode userInput).1
        (getRequiredChunks existingSize fileSize chunkSize)
        (promptForTransferConfirmation testMode userInput).2).ResumeChunks
      = getRequiredChunks existingSize fileSize chunkSize := by
  refine ⟨?_, rfl⟩
  simp only [NewTransferResponse]
  revert hrej
  unfold promptForTransferConfirmation
  cases testMode with
  | true => simp
  | false =>
      cases userInput with
      | none => intro _; simp
      | some line =>
          simp only [Bool.false_eq_true, if_false]
          split_ifs <;> simp

/-- Witness for C5 as amended: a stdin read error rejects the transfer with
the reason `Error reading user response`. -/
theorem C5_rejection_reason_nonempty_witness :
    (NewTransferResponse (promptForTransferConfirmation false none).1
        (getRequiredChunks none 1024 512)
        (promptForTransferConfirmation false none).2).RejectionMsg ≠ "" := by
  exact (C5_rejection_reason_nonempty false none none 1024 512 (by decide)).1

/-- C6 counterexample: on a user rejection, `ReceiveFileChunked` returns the
error `transfer rejected: ...` (line 453) instead of completing without an
error as the claim states. -/
theorem C6_counterexample_receiver_errors_on_rejection :
    (receiveFileChunkedOutcome false (some "no\x0a") none 1024 512 [] [] [] "").1
      = Except.error "transfer rejected: User rejected the transfer" := by
  rfl

/-- C6 as amended: a rejected transfer is a normal outcome only on the
sender side — `SendFileChunked` returns success after reporting the reason —
while the receiver's `ReceiveFileChunked` returns a `transfer rejected`
error. -/
theorem C6_rejection_sender_ok_receiver_error (response : TransferResponse)
    (file : List Nat) (chunkSize : Nat) (testMode : Bool)
    (userInput : Option String) (existingSize : Option Nat)
    (fileSize chunkSizeR : Nat) (streams : List (List Nat)) (ackOks : List Bool)
    (file0 : List Nat) (expectedHash : String)
    (hrejS : response.Accepted = false)
    (hrejR : (promptForTransferConfirmation testMode userInput).1 = false) :
    sendFileChunkedOutcome response file chunkSize = (Except.ok (), [])
    ∧ receiveFileChunkedOutcome testMode userInput existingSize fileSize chunkSizeR
        streams ackOks file0 expectedHash
      = (Except.error ("transfer rejected: "
          ++ (promptForTransferConfirmation testMode userInput).2), file0) := by
  constructor
  · simp [sendFileChunkedOutcome, hrejS]
  · simp [receiveFileChunkedOutcome, hrejR]

/-- Witness for C6 as amended, at a concrete rejected session. -/
theorem C6_rejection_sender_ok_receiver_error_witness :
    sendFileChunkedOutcome (NewTransferResponse false [0, 1] "User rejected the transfer")
      [1, 2, 3] 512 = (Except.ok (), []) := by
  exact (C6_rejection_sender_ok_receiver_error
    (NewTransferResponse false [0, 1] "User rejected the transfer") [1, 2, 3] 512
    false none none 1024 512 [] [] [] "" (by decide) (by decide)).1

/-- C7 counterexample: the receiver writes the `0x01` acknowledgement inside
`receiveChunkReliably` (line 160), before `ReceiveFileChunked` performs the
positional write (line 494); with the positional write failing
(`writeOk = false`) the acknowledgement has already been produced, so a
sender reading `0x01` cannot conclude the write succeeded. -/
theorem C7_counterexample_ack_precedes_write :
    receiveChunkStep (chunkFrame 0 [42]) 0 5 1024 false = [RecvEvent.ackWrite 1]
    ∧ receiveChunkStep (chunkFrame 0 [42]) 0 5 1024 true
        = [RecvEvent.ackWrite 1, RecvEvent.fileWrite 5120 [42]] := by
  have hdec : receiveChunkReliably (chunkFrame 0 [42]) 0 true
      = ⟨some ⟨MessageChunkData, 0, 1, [42], hexEncode (sha256 [42])⟩, [1], []⟩ := by
    simpa using receiveChunk_chunkFrame_ok 0 [42] true (by decide) (by decide)
  constructor
  · simp [receiveChunkStep, hdec]
  · simp [receiveChunkStep, hdec]

/-- C7 as amended: for every substream whose chunk decodes successfully, the
acknowledgement byte `0x01` is written first — after digest verification but
before the positional write — and is produced whether or not that write
succeeds; a sender reading `0x01` may conclude only that digest verification
succeeded on the receiver. -/
theorem C7_ack_written_before_positional_write (stream : List Nat)
    (positionIndex chunkIndex chunkSize : Nat) (writeOk : Bool) (chunk : ChunkData)
    (hres : (receiveChunkReliably stream positionIndex true).result = some chunk) :
    receiveChunkStep stream positionIndex chunkIndex chunkSize writeOk
      = RecvEvent.ackWrite 1 ::
          (if writeOk then [RecvEvent.fileWrite (chunkIndex * chunkSize) chunk.Data]
           else []) := by
  simp [receiveChunkStep, hres]

/-- Witness for C7 as amended, on a concrete well-formed frame. -/
theorem C7_ack_written_before_positional_write_witness :
    receiveChunkStep (chunkFrame 0 [42]) 0 5 1024 true
      = [RecvEvent.ackWrite 1, RecvEvent.fileWrite 5120 [42]] := by
  have hres : (receiveChunkReliably (chunkFrame 0 [42]) 0 true).result
      = some ⟨MessageChunkData, 0, 1, [42], hexEncode (sha256 [42])⟩ := by
    have h := receiveChunk_chunkFrame_ok 0 [42] true (by decide) (by decide)
    rw [h]
    simp
  have h := C7_ack_written_before_positional_write (chunkFrame 0 [42]) 0 5 1024 true
    ⟨MessageChunkData, 0, 1, [42], hexEncode (sha256 [42])⟩ hres
  simpa using h

/-- C9 counterexample: `BufferPool.Put` re-slices a returned buffer to
length zero (line 30), so the next `Get` hands out a buffer of length `0`,
not the pool's configured `ChunkBufferSize` as the claim requires. -/
theorem C9_counterexample_get_after_put_is_empty :
    ((NewBufferPool ChunkBufferSize).Get.1).len = ChunkBufferSize
    ∧ (((NewBufferPool ChunkBufferSize).Get.2.Put
        (NewBufferPool ChunkBufferSize).Get.1).Get.1).len = 0
    ∧ ChunkBufferSize ≠ 0 := by
  have hget : (NewBufferPool ChunkBufferSize).Get
      = (⟨List.replicate ChunkBufferSize 0, ChunkBufferSize⟩,
         NewBufferPool ChunkBufferSize) := rfl
  have hput : (NewBufferPool ChunkBufferSize).Put
      ⟨List.replicate ChunkBufferSize 0, ChunkBufferSize⟩
      = ⟨ChunkBufferSize, [⟨List.replicate ChunkBufferSize 0, 0⟩]⟩ := by
    unfold BufferPool.Put GoSlice.capacity
    rw [if_pos (List.length_replicate _ _)]
    rfl
  refine ⟨rfl, ?_, by decide⟩
  rw [hget]
  dsimp only
  rw [hput]
  rfl

/-- C9 as amended: returned buffers are re-sliced to length zero with their
capacity kept, and the send path re-slices the pooled buffer to the chunk
size within its capacity before filling it from the file, so the bytes put
on the wire are exactly the file's chunk bytes whatever the pool state —
the pool never affects correctness. -/
theorem C9_pool_never_changes_sent_bytes (pool : BufferPool) (size : Nat)
    (fileChunk : List Nat)
    (hwf : ∀ b ∈ pool.store, b.backing.length = ChunkBufferSize)
    (hbs : pool.bufferSize = ChunkBufferSize)
    (hlen : fileChunk.length = size) :
    ∃ pool2, chunkReadAndSendBytes pool size fileChunk = some (fileChunk, pool2) := by
  have hA : fileChunk.take size = fileChunk := by
    rw [← hlen, List.take_length]
  have hAlen : (fileChunk.take size).length = size := by rw [hA, hlen]
  simp only [chunkReadAndSendBytes]
  by_cases hsz : size ≤ ChunkBufferSize
  · rw [if_pos hsz]
    have hcap : pool.Get.1.backing.length = ChunkBufferSize := by
      unfold BufferPool.Get
      cases hst : pool.store with
      | nil => simpa using hbs
      | cons b rest =>
          simpa using hwf b (by rw [hst]; exact List.mem_cons_self b rest)
    have hres : resliceTo pool.Get.1 size = some ⟨pool.Get.1.backing, size⟩ := by
      unfold resliceTo
      rw [if_pos (by rw [hcap]; exact hsz)]
    rw [hres]
    simp only [readFullInto, GoSlice.bytes]
    rw [List.take_left' hAlen, hA]
    exact ⟨_, rfl⟩
  · rw [if_neg hsz]
    simp only [readFullInto, GoSlice.bytes]
    rw [List.take_left' hAlen, hA]
    exact ⟨pool, rfl⟩

/-- Witness for C9 as amended: an empty pool, a 3-byte chunk. -/
theorem C9_pool_never_changes_sent_bytes_witness :
    ∃ pool2, chunkReadAndSendBytes (NewBufferPool ChunkBufferSize) 3 [1, 2, 3]
      = some ([1, 2, 3], pool2) := by
  exact C9_pool_never_changes_sent_bytes (NewBufferPool ChunkBufferSize) 3 [1, 2, 3]
    (by simp [NewBufferPool]) rfl rfl

/-- The decoded result of `receiveChunkReliably` does not depend on whether
the acknowledgement write succeeds, and a failed acknowledgement write on a
successfully decoded chunk is only logged. -/
theorem receiveChunk_ackOk_independent (stream : List Nat) (expected : Nat) :
    (receiveChunkReliably stream expected false).result
      = (receiveChunkReliably stream expected true).result
    ∧ ((receiveChunkReliably stream expected true).result.isSome →
        (receiveChunkReliably stream expected false).logs
          = ["Warning: failed to send acknowledgment"]) := by
  simp only [receiveChunkReliably]
  split_ifs <;> simp_all

/-- C10: a chunk whose header, identity and digest all verify is returned
successfully even when the acknowledgement write fails — the failure is only
logged — so the receiver's loop writes the payload and advances to the next
position exactly as if the acknowledgement had been delivered, while the
sender, whose acknowledgement read failed, re-sends the same chunk on its
next attempt. -/
theorem C10_ack_write_failure_only_logged (stream : List Nat) (k : Nat)
    (chunk : ChunkData) (c : Nat) (cs : List Nat) (ss : List (List Nat))
    (aoks : List Bool) (chunkSize : Nat) (file : List Nat)
    (k2 : Nat) (d : List Nat) (restAcks : List (Option Nat))
    (hres : (receiveChunkReliably stream k true).result = some chunk) :
    (receiveChunkReliably stream k false).result = some chunk
    ∧ (receiveChunkReliably stream k false).logs
        = ["Warning: failed to send acknowledgment"]
    ∧ receiveChunksLoop chunkSize k (c :: cs) (stream :: ss) (false :: aoks) file
        = receiveChunksLoop chunkSize k (c :: cs) (stream :: ss) (true :: aoks) file
    ∧ sendChunkWithRetry k2 d (none :: some 1 :: restAcks)
        = (true, [chunkFrame k2 d, chunkFrame k2 d]) := by
  obtain ⟨hind, hlog⟩ := receiveChunk_ackOk_independent stream k
  have hresF : (receiveChunkReliably stream k false).result = some chunk := by
    rw [hind, hres]
  refine ⟨hresF, hlog (by rw [hres]; rfl), ?_, rfl⟩
  simp [receiveChunksLoop, hres, hresF]

/-- Witness for C10 on a concrete well-formed frame. -/
theorem C10_ack_write_failure_only_logged_witness :
    (receiveChunkReliably (chunkFrame 0 [9]) 0 false).result
      = some ⟨MessageChunkData, 0, 1, [9], hexEncode (sha256 [9])⟩ := by
  have hres : (receiveChunkReliably (chunkFrame 0 [9]) 0 true).result
      = some ⟨MessageChunkData, 0, 1, [9], hexEncode (sha256 [9])⟩ := by
    rw [receiveChunk_chunkFrame_ok 0 [9] true (by decide) (by decide)]
    simp
  exact (C10_ack_write_failure_only_logged (chunkFrame 0 [9]) 0
    ⟨MessageChunkData, 0, 1, [9], hexEncode (sha256 [9])⟩ 0 [] [] [] 8 [] 7 [3] []
    hres).1

end LanDrop
